import Mathlib

/-!
Shallow embedding of the allocator core in src/main.c: a fixed-buffer bump
allocator, a page-chained arena allocator, and a size-classed bucket
allocator, together with proofs about the claims of the specification.

Addresses are modelled as natural numbers; a page obtained from the page
provider is a 4096-byte range starting at some base address.  Pointer
arithmetic of the C code is translated literally on these numbers.
Process-terminating failure paths of the C code are modelled by Option,
with none standing for the fatal exit.
-/

/-- Translation of the C idiom (size + 7) and-not 7: round up to the next
multiple of 8. -/
def alignUp8 (n : Nat) : Nat := (n + 7) / 8 * 8

/-- MemoryBlock from src/main.c: a pointer (here an address, as Nat) plus
the rounded size the allocator reported. -/
structure MemoryBlock where
  ptr : Nat
  size : Nat
deriving DecidableEq

/-- Loop body of log2_ceil in src/main.c: while (value < x) value <<= 1,
result++.  The fuel argument bounds the iteration count; fuel = x is enough
because value grows by at least 1 per step while value < x. -/
def log2_ceil_go : Nat → Nat → Nat → Nat → Nat
  | 0, _, result, _ => result
  | fuel + 1, x, result, value =>
    if value < x then log2_ceil_go fuel x (result + 1) (value * 2) else result

/-- log2_ceil from src/main.c: smallest r with 2^r at least x (and 0 at 0). -/
def log2_ceil (x : Nat) : Nat := log2_ceil_go x x 0 1

/-- memset over an address range: bytes in [start, start + n) become v. -/
def writeRange (mem : Nat → Nat) (start n v : Nat) : Nat → Nat :=
  fun a => if start ≤ a ∧ a < start + n then v else mem a

/-- Scan loop of gpa_free in src/main.c: check that count consecutive bytes
from address start all hold the sentinel byte 0xAA. -/
def scan_from (mem : Nat → Nat) : Nat → Nat → Bool
  | _, 0 => true
  | start, count + 1 => mem start == 0xAA && scan_from mem (start + 1) count

/-- FixedBufferAllocator from src/main.c, with the cursor kept relative to
the start of the caller-supplied region.  The C struct (vtable pointer,
size, offset) occupies the first 24 bytes of the region, so the cursor
starts at 24. -/
structure FixedBufferAllocator where
  size : Nat
  offset : Nat
deriving DecidableEq

/-- sizeof(FixedBufferAllocator) on LP64: three 8-byte fields. -/
def fixedBufferHeaderSize : Nat := 24

/-- create_fixed_buffer_allocator from src/main.c. -/
def create_fixed_buffer_allocator (size : Nat) : FixedBufferAllocator :=
  { size := size, offset := fixedBufferHeaderSize }

/-- fixed_buffer_alloc from src/main.c.  none models the fatal exit(1) on
the out-of-memory path; there is no check against size zero. -/
def fixed_buffer_alloc (fba : FixedBufferAllocator) (size : Nat) :
    Option (MemoryBlock × FixedBufferAllocator) :=
  if fba.offset + alignUp8 size > fba.size then none
  else some ({ ptr := fba.offset, size := alignUp8 size },
             { fba with offset := fba.offset + alignUp8 size })

/-- fixed_buffer_resize from src/main.c: last-allocation check against the
cursor, then an out-of-memory check, then the cursor moves. -/
def fixed_buffer_resize (fba : FixedBufferAllocator) (memory : MemoryBlock)
    (new_size : Nat) : Bool × FixedBufferAllocator :=
  if memory.ptr + memory.size ≠ fba.offset then (false, fba)
  else if fba.offset - memory.size + alignUp8 new_size > fba.size then
    (false, fba)
  else (true, { fba with offset := fba.offset - memory.size + alignUp8 new_size })

/-- One non-head node of the arena chain: the ArenaAllocator struct that
lives at the start of its own page.  base is the page start address and
offset the absolute cursor address. -/
structure ArenaPage where
  base : Nat
  offset : Nat
deriving DecidableEq

/-- ArenaAllocator from src/main.c: the head page (base, offset) plus the
chain of further pages in next order. -/
structure ArenaAllocator where
  base : Nat
  offset : Nat
  next : List ArenaPage
deriving DecidableEq

/-- sizeof(ArenaAllocator) on LP64, already 8-byte aligned: three 8-byte
fields. -/
def arenaHeaderSize : Nat := 24

/-- Chain walk of arena_alloc in src/main.c over the non-head pages.  The
C loop compares current->offset + size against (void *)self + 4096, so the
bound selfEnd is the HEAD page end for every page of the chain. -/
def arena_try_alloc (selfEnd : Nat) (size : Nat) :
    List ArenaPage → Option (Nat × List ArenaPage)
  | [] => none
  | p :: ps =>
    if p.offset + size ≤ selfEnd then
      some (p.offset, { p with offset := p.offset + size } :: ps)
    else
      match arena_try_alloc selfEnd size ps with
      | some (ptr, ps') => some (ptr, p :: ps')
      | none => none

/-- arena_alloc from src/main.c.  newBase is the base address the page
provider would hand out if a fresh page is needed.  none models the fatal
exit(1) on size = 0 or size > 4096. -/
def arena_alloc (arena : ArenaAllocator) (size newBase : Nat) :
    Option (MemoryBlock × ArenaAllocator) :=
  if size = 0 ∨ size > 4096 then none
  else if arena.offset + alignUp8 size ≤ arena.base + 4096 then
    some ({ ptr := arena.offset, size := alignUp8 size },
          { arena with offset := arena.offset + alignUp8 size })
  else
    match arena_try_alloc (arena.base + 4096) (alignUp8 size) arena.next with
    | some (ptr, pages) =>
      some ({ ptr := ptr, size := alignUp8 size }, { arena with next := pages })
    | none =>
      some ({ ptr := newBase + arenaHeaderSize, size := alignUp8 size },
            { arena with
              next := arena.next ++
                [{ base := newBase,
                   offset := newBase + arenaHeaderSize + alignUp8 size }] })

/-- arena_resize from src/main.c: the last-allocation and out-of-memory
checks both consult only the head page (self). -/
def arena_resize (arena : ArenaAllocator) (memory : MemoryBlock)
    (new_size : Nat) : Bool × ArenaAllocator :=
  if memory.ptr + memory.size ≠ arena.offset ∨
      memory.ptr + alignUp8 new_size > arena.base + 4096 then
    (false, arena)
  else
    (true, { arena with offset := memory.ptr + alignUp8 new_size })

/-- GPABucket from src/main.c: one page of a size class.  base is the page
start address, offset the absolute cursor, bucket_size the slot size of the
class.  The prev link is modelled by list order in the chain. -/
structure GPABucket where
  base : Nat
  offset : Nat
  bucket_size : Nat
deriving DecidableEq

/-- sizeof(GPABucket) on LP64: three 8-byte fields. -/
def gpaBucketHeaderSize : Nat := 24

/-- GeneralPurposeAllocator from src/main.c: twelve size-class chains
(head page first, prev links going right) and the byte contents of all
pages, as a map from address to byte value. -/
structure GeneralPurposeAllocator where
  buckets : List (List GPABucket)
  mem : Nat → Nat

/-- create_gpa_allocator from src/main.c: all twelve chains empty. -/
def create_gpa_allocator (mem : Nat → Nat) : GeneralPurposeAllocator :=
  { buckets := List.replicate 12 [], mem := mem }

/-- Page-creation step of gpa_alloc in src/main.c: when the chain head is
NULL or its page is out of room, a fresh sentinel-filled page becomes the
new head with prev pointing at the old head.  Returns the page to bump,
the rest of the chain, and the memory contents. -/
def gpa_grow (gpa : GeneralPurposeAllocator)
    (bucket_index bucket_size newBase : Nat) :
    GPABucket × List GPABucket × (Nat → Nat) :=
  match gpa.buckets.getD bucket_index [] with
  | [] =>
    ({ base := newBase, offset := newBase + gpaBucketHeaderSize,
       bucket_size := bucket_size }, [],
     writeRange gpa.mem newBase 4096 0xAA)
  | b :: bs =>
    if b.offset + bucket_size > b.base + 4096 then
      ({ base := newBase, offset := newBase + gpaBucketHeaderSize,
         bucket_size := bucket_size }, b :: bs,
       writeRange gpa.mem newBase 4096 0xAA)
    else (b, bs, gpa.mem)

/-- gpa_alloc from src/main.c.  none models the fatal exit(1) paths
(size = 0, size > 4096, or class index at least 12). -/
def gpa_alloc (gpa : GeneralPurposeAllocator) (size newBase : Nat) :
    Option (MemoryBlock × GeneralPurposeAllocator) :=
  if size = 0 ∨ size > 4096 then none
  else if 12 ≤ log2_ceil size then none
  else
    some ({ ptr := (gpa_grow gpa (log2_ceil size) (2 ^ log2_ceil size) newBase).1.offset,
            size := 2 ^ log2_ceil size },
          { buckets := gpa.buckets.set (log2_ceil size)
              ({ (gpa_grow gpa (log2_ceil size) (2 ^ log2_ceil size) newBase).1 with
                 offset := (gpa_grow gpa (log2_ceil size) (2 ^ log2_ceil size) newBase).1.offset
                   + 2 ^ log2_ceil size }
                :: (gpa_grow gpa (log2_ceil size) (2 ^ log2_ceil size) newBase).2.1),
            mem := (gpa_grow gpa (log2_ceil size) (2 ^ log2_ceil size) newBase).2.2 })

/-- gpa_free from src/main.c: memset the block with the sentinel, then scan
the bytes of the CURRENT HEAD page of the class from just after its header
to the page end; if all are sentinel, the head is unlinked in favour of its
prev.  none models the null dereference the C code performs when the chain
is empty. -/
def gpa_free (gpa : GeneralPurposeAllocator) (memory : MemoryBlock) :
    Option GeneralPurposeAllocator :=
  match gpa.buckets.getD (log2_ceil memory.size) [] with
  | [] => none
  | b :: bs =>
    if scan_from (writeRange gpa.mem memory.ptr memory.size 0xAA)
        (b.base + gpaBucketHeaderSize) 4072 then
      some { buckets := gpa.buckets.set (log2_ceil memory.size) bs,
             mem := writeRange gpa.mem memory.ptr memory.size 0xAA }
    else
      some { buckets := gpa.buckets,
             mem := writeRange gpa.mem memory.ptr memory.size 0xAA }

/-- gpa_resize from src/main.c: last-allocation check against the head page
cursor of the class of the OLD size; growing to a larger class fails; a
shrink poisons the vacated tail bytes.  No cursor is ever moved.  none
models the null dereference when the class chain is empty. -/
def gpa_resize (gpa : GeneralPurposeAllocator) (memory : MemoryBlock)
    (new_size : Nat) : Option (Bool × GeneralPurposeAllocator) :=
  match gpa.buckets.getD (log2_ceil memory.size) [] with
  | [] => none
  | old_bucket :: _ =>
    if memory.ptr + 2 ^ log2_ceil memory.size ≠ old_bucket.offset then
      some (false, gpa)
    else if log2_ceil memory.size < log2_ceil new_size then
      some (false, gpa)
    else
      some (true,
        { gpa with
          mem := if new_size < memory.size then
              writeRange gpa.mem (memory.ptr + new_size)
                (memory.size - new_size) 0xAA
            else gpa.mem })

/-- Two 4096-byte pages with these base addresses do not overlap. -/
def pageDisj (b1 b2 : Nat) : Prop := b1 + 4096 ≤ b2 ∨ b2 + 4096 ≤ b1

/-- All pages of the arena, head first. -/
def arenaPages (a : ArenaAllocator) : List ArenaPage :=
  { base := a.base, offset := a.offset } :: a.next

/-- Well-formed arena: pairwise disjoint pages, every cursor inside its own
page past the page header. -/
def ArenaWF (a : ArenaAllocator) : Prop :=
  (arenaPages a).Pairwise (fun p q => pageDisj p.base q.base) ∧
  ∀ p ∈ arenaPages a,
    p.base + arenaHeaderSize ≤ p.offset ∧ p.offset ≤ p.base + 4096

/-- The block m lies inside page p of arena a, past the page header. -/
def InArenaPage (a : ArenaAllocator) (m : MemoryBlock) (p : ArenaPage) :
    Prop :=
  p ∈ arenaPages a ∧ p.base + arenaHeaderSize ≤ m.ptr ∧
    m.ptr + m.size ≤ p.base + 4096

/-- Well-formed bucket chain: pairwise disjoint pages, every cursor inside
its own page past the page header. -/
def GPAChainWF (ps : List GPABucket) : Prop :=
  ps.Pairwise (fun p q => pageDisj p.base q.base) ∧
  ∀ p ∈ ps,
    p.base + gpaBucketHeaderSize ≤ p.offset ∧ p.offset ≤ p.base + 4096

/-! ## Helper lemmas -/

theorem le_alignUp8 (n : Nat) : n ≤ alignUp8 n := by
  unfold alignUp8; omega

theorem alignUp8_dvd (n : Nat) : 8 ∣ alignUp8 n := by
  unfold alignUp8; exact Dvd.intro_left _ rfl

theorem alignUp8_of_dvd (n : Nat) (h : 8 ∣ n) : alignUp8 n = n := by
  obtain ⟨c, rfl⟩ := h
  unfold alignUp8; omega

theorem alignUp8_le_of_le (n c : Nat) (h8 : 8 ∣ c) (h : n ≤ c) :
    alignUp8 n ≤ c := by
  obtain ⟨k, rfl⟩ := h8
  unfold alignUp8; omega

theorem log2_ceil_go_shift (fuel : Nat) :
    ∀ x r v, log2_ceil_go fuel x r v = r + log2_ceil_go fuel x 0 v := by
  induction fuel with
  | zero => intro x r v; rfl
  | succ n ih =>
    intro x r v
    by_cases h : v < x
    · simp only [log2_ceil_go, if_pos h]
      rw [ih x (r + 1) (v * 2), ih x 1 (v * 2)]
      omega
    · simp only [log2_ceil_go, if_neg h]; omega

theorem log2_ceil_go_le (fuel : Nat) :
    ∀ x v, 1 ≤ v → x ≤ v * 2 ^ fuel →
      x ≤ v * 2 ^ log2_ceil_go fuel x 0 v := by
  induction fuel with
  | zero => intro x v _ h; simpa [log2_ceil_go] using h
  | succ n ih =>
    intro x v hv h
    by_cases hvx : v < x
    · simp only [log2_ceil_go, if_pos hvx]
      rw [log2_ceil_go_shift]
      have h' : x ≤ v * 2 * 2 ^ n := by
        rw [pow_succ, Nat.mul_comm (2 ^ n) 2, ← Nat.mul_assoc] at h
        exact h
      calc x ≤ v * 2 * 2 ^ log2_ceil_go n x 0 (v * 2) := ih x (v * 2) (by omega) h'
        _ = v * 2 ^ (1 + log2_ceil_go n x 0 (v * 2)) := by
            rw [Nat.add_comm 1, pow_succ]; ring
    · simp only [log2_ceil_go, if_neg hvx]
      simpa using Nat.le_of_not_lt hvx

theorem log2_ceil_go_min (fuel : Nat) :
    ∀ x v k, 1 ≤ v → x ≤ v * 2 ^ k → log2_ceil_go fuel x 0 v ≤ k := by
  induction fuel with
  | zero => intro x v k _ _; exact Nat.zero_le k
  | succ n ih =>
    intro x v k hv h
    by_cases hvx : v < x
    · simp only [log2_ceil_go, if_pos hvx]
      rw [log2_ceil_go_shift]
      cases k with
      | zero => simp at h; omega
      | succ m =>
        have h' : x ≤ v * 2 * 2 ^ m := by
          rw [pow_succ, Nat.mul_comm (2 ^ m) 2, ← Nat.mul_assoc] at h
          exact h
        have := ih x (v * 2) m (by omega) h'
        omega
    · simp only [log2_ceil_go, if_neg hvx]
      exact Nat.zero_le k

theorem le_two_pow_log2_ceil (x : Nat) : x ≤ 2 ^ log2_ceil x := by
  have h := log2_ceil_go_le x x 1 (by omega)
    (by simpa using (Nat.lt_two_pow x).le)
  simpa [log2_ceil] using h

theorem log2_ceil_le (x k : Nat) (h : x ≤ 2 ^ k) : log2_ceil x ≤ k := by
  have := log2_ceil_go_min x x 1 k (by omega) (by simpa using h)
  simpa [log2_ceil] using this

theorem log2_ceil_pow (k : Nat) : log2_ceil (2 ^ k) = k := by
  refine Nat.le_antisymm (log2_ceil_le _ _ le_rfl) ?_
  have h1 := le_two_pow_log2_ceil (2 ^ k)
  exact (Nat.pow_le_pow_iff_right (by omega)).1 h1

theorem lt_of_le_two_pow (x k : Nat) (h : 2 ^ k < x) : k < log2_ceil x := by
  by_contra hc
  push_neg at hc
  have := le_two_pow_log2_ceil x
  have h2 : (2 : Nat) ^ log2_ceil x ≤ 2 ^ k :=
    Nat.pow_le_pow_right (by omega) hc
  omega

theorem scan_from_iff (mem : Nat → Nat) :
    ∀ count start, scan_from mem start count = true ↔
      ∀ i, i < count → mem (start + i) = 0xAA := by
  intro count
  induction count with
  | zero => intro s; simp [scan_from]
  | succ n ih =>
    intro s
    simp only [scan_from, Bool.and_eq_true, beq_iff_eq, ih (s + 1)]
    constructor
    · rintro ⟨h0, hrest⟩ i hi
      cases i with
      | zero => simpa using h0
      | succ j =>
        have := hrest j (by omega)
        rw [show s + 1 + j = s + (j + 1) by omega] at this
        exact this
    · intro h
      refine ⟨by simpa using h 0 (by omega), fun j hj => ?_⟩
      have := h (j + 1) (by omega)
      rw [show s + (j + 1) = s + 1 + j by omega] at this
      exact this

theorem getD_set_self {α : Type} : ∀ (l : List α) (i : Nat) (a d : α),
    i < l.length → (l.set i a).getD i d = a := by
  intro l
  induction l with
  | nil => intro i a d h; simp at h
  | cons x xs ih =>
    intro i a d h
    cases i with
    | zero => rfl
    | succ j =>
      have hj : j < xs.length := by simpa using h
      simpa [List.set, List.getD] using ih j a d hj

theorem fixed_buffer_alloc_eq_some (fba : FixedBufferAllocator) (n : Nat)
    (blk : MemoryBlock) (f1 : FixedBufferAllocator)
    (h : fixed_buffer_alloc fba n = some (blk, f1)) :
    fba.offset + alignUp8 n ≤ fba.size ∧
    blk = { ptr := fba.offset, size := alignUp8 n } ∧
    f1 = { fba with offset := fba.offset + alignUp8 n } := by
  unfold fixed_buffer_alloc at h
  split at h
  · simp at h
  · rename_i hle
    simp only [Option.some.injEq, Prod.mk.injEq] at h
    exact ⟨by omega, h.1.symm, h.2.symm⟩

theorem fixed_buffer_alloc_none_iff (fba : FixedBufferAllocator) (s : Nat) :
    fixed_buffer_alloc fba s = none ↔ fba.offset + alignUp8 s > fba.size := by
  unfold fixed_buffer_alloc
  split
  · rename_i hgt; simpa using hgt
  · rename_i hle; simpa using hle

theorem arena_alloc_none_iff (a : ArenaAllocator) (s nb : Nat) :
    arena_alloc a s nb = none ↔ (s = 0 ∨ s > 4096) := by
  constructor
  · intro h
    by_contra hc
    unfold arena_alloc at h
    rw [if_neg hc] at h
    split at h
    · simp at h
    · split at h <;> simp at h
  · intro hc
    unfold arena_alloc
    rw [if_pos hc]

theorem arena_alloc_head_some (a : ArenaAllocator) (n nb : Nat)
    (blk : MemoryBlock) (a1 : ArenaAllocator)
    (hroom : a.offset + alignUp8 n ≤ a.base + 4096)
    (h : arena_alloc a n nb = some (blk, a1)) :
    blk = { ptr := a.offset, size := alignUp8 n } ∧
    a1 = { a with offset := a.offset + alignUp8 n } := by
  unfold arena_alloc at h
  split at h
  · simp at h
  · simp only [Option.some.injEq, Prod.mk.injEq] at h
    exact ⟨h.1.symm, h.2.symm⟩

theorem arena_alloc_size (a : ArenaAllocator) (n nb : Nat)
    (blk : MemoryBlock) (a1 : ArenaAllocator)
    (h : arena_alloc a n nb = some (blk, a1)) : blk.size = alignUp8 n := by
  unfold arena_alloc at h
  split at h
  · simp at h
  · split at h
    · simp only [Option.some.injEq, Prod.mk.injEq] at h
      rw [← h.1]
    · split at h
      · simp only [Option.some.injEq, Prod.mk.injEq] at h
        rw [← h.1]
      · simp only [Option.some.injEq, Prod.mk.injEq] at h
        rw [← h.1]

theorem gpa_alloc_eq_some (g : GeneralPurposeAllocator) (n nb : Nat)
    (blk : MemoryBlock) (g1 : GeneralPurposeAllocator)
    (h : gpa_alloc g n nb = some (blk, g1)) :
    n ≠ 0 ∧ n ≤ 4096 ∧ log2_ceil n < 12 ∧
    blk = { ptr := (gpa_grow g (log2_ceil n) (2 ^ log2_ceil n) nb).1.offset,
            size := 2 ^ log2_ceil n } ∧
    g1 = { buckets := g.buckets.set (log2_ceil n)
             ({ (gpa_grow g (log2_ceil n) (2 ^ log2_ceil n) nb).1 with
                offset := (gpa_grow g (log2_ceil n) (2 ^ log2_ceil n) nb).1.offset
                  + 2 ^ log2_ceil n }
               :: (gpa_grow g (log2_ceil n) (2 ^ log2_ceil n) nb).2.1),
           mem := (gpa_grow g (log2_ceil n) (2 ^ log2_ceil n) nb).2.2 } := by
  unfold gpa_alloc at h
  split at h
  · simp at h
  · rename_i h1
    split at h
    · simp at h
    · rename_i h2
      push_neg at h1
      simp only [Option.some.injEq, Prod.mk.injEq] at h
      exact ⟨h1.1, h1.2, by omega, h.1.symm, h.2.symm⟩

theorem gpa_alloc_none_iff (g : GeneralPurposeAllocator) (s nb : Nat) :
    gpa_alloc g s nb = none ↔ (s = 0 ∨ s > 2048) := by
  constructor
  · intro h
    by_contra hc
    push_neg at hc
    have hle : log2_ceil s ≤ 11 := by
      refine log2_ceil_le s 11 ?_
      norm_num
      omega
    unfold gpa_alloc at h
    rw [if_neg (by omega), if_neg (by omega)] at h
    simp at h
  · intro hc
    unfold gpa_alloc
    rcases hc with hc | hc
    · rw [if_pos (Or.inl hc)]
    · by_cases h4 : s > 4096
      · rw [if_pos (Or.inr h4)]
      · have h11 : 11 < log2_ceil s := by
          refine lt_of_le_two_pow s 11 ?_
          norm_num
          omega
        rw [if_neg (by omega), if_pos (by omega)]

theorem gpa_alloc_head_cursor (g : GeneralPurposeAllocator) (n nb : Nat)
    (blk : MemoryBlock) (g1 : GeneralPurposeAllocator)
    (hlen : g.buckets.length = 12)
    (h : gpa_alloc g n nb = some (blk, g1)) :
    g1.buckets.getD (log2_ceil n) [] =
      { (gpa_grow g (log2_ceil n) (2 ^ log2_ceil n) nb).1 with
        offset := blk.ptr + 2 ^ log2_ceil n }
        :: (gpa_grow g (log2_ceil n) (2 ^ log2_ceil n) nb).2.1 := by
  obtain ⟨-, -, hidx, hblk, hg1⟩ := gpa_alloc_eq_some g n nb blk g1 h
  subst hg1
  subst hblk
  exact getD_set_self _ _ _ _ (by rw [hlen]; exact hidx)

theorem gpa_resize_eq (g : GeneralPurposeAllocator) (m : MemoryBlock)
    (ns : Nat) (b : GPABucket) (bs : List GPABucket)
    (hchain : g.buckets.getD (log2_ceil m.size) [] = b :: bs) :
    gpa_resize g m ns =
      (if m.ptr + 2 ^ log2_ceil m.size ≠ b.offset then some (false, g)
       else if log2_ceil m.size < log2_ceil ns then some (false, g)
       else some (true, { g with mem :=
         (if ns < m.size then
            writeRange g.mem (m.ptr + ns) (m.size - ns) 0xAA
          else g.mem) })) := by
  unfold gpa_resize
  split
  · rename_i heq
    rw [hchain] at heq
    simp at heq
  · rename_i ob rest heq
    rw [hchain] at heq
    injection heq with h1 h2
    subst h1
    rfl

/-! ## Claims -/

/-- C7: every successful allocate returns a block whose size is at least
the request n; for Fixed-Buffer and Arena it is n rounded up to the nearest
multiple of 8, for Bucket it is the smallest power of two at least n, and
the class routing sends requests of 1, 20 and 300 bytes to classes 0, 5
and 9 holding 1, 32 and 512 bytes. -/
theorem alloc_size_rounding :
    (∀ (fba : FixedBufferAllocator) (n : Nat) (blk : MemoryBlock)
       (f1 : FixedBufferAllocator),
       fixed_buffer_alloc fba n = some (blk, f1) →
       blk.size = alignUp8 n ∧ n ≤ blk.size ∧ 8 ∣ blk.size)
    ∧ (∀ (a : ArenaAllocator) (n nb : Nat) (blk : MemoryBlock)
         (a1 : ArenaAllocator),
       arena_alloc a n nb = some (blk, a1) →
       blk.size = alignUp8 n ∧ n ≤ blk.size ∧ 8 ∣ blk.size)
    ∧ (∀ (g : GeneralPurposeAllocator) (n nb : Nat) (blk : MemoryBlock)
         (g1 : GeneralPurposeAllocator),
       gpa_alloc g n nb = some (blk, g1) →
       blk.size = 2 ^ log2_ceil n ∧ n ≤ blk.size ∧
       ∀ k, n ≤ 2 ^ k → blk.size ≤ 2 ^ k)
    ∧ (log2_ceil 1 = 0 ∧ log2_ceil 20 = 5 ∧ log2_ceil 300 = 9 ∧
       (2 : Nat) ^ 0 = 1 ∧ (2 : Nat) ^ 5 = 32 ∧ (2 : Nat) ^ 9 = 512) := by
  refine ⟨?_, ?_, ?_, by decide⟩
  · intro fba n blk f1 h
    obtain ⟨hle, hblk, -⟩ := fixed_buffer_alloc_eq_some fba n blk f1 h
    subst hblk
    exact ⟨rfl, le_alignUp8 n, alignUp8_dvd n⟩
  · intro a n nb blk a1 h
    have hs := arena_alloc_size a n nb blk a1 h
    rw [hs]
    exact ⟨rfl, le_alignUp8 n, alignUp8_dvd n⟩
  · intro g n nb blk g1 h
    obtain ⟨-, -, -, hblk, -⟩ := gpa_alloc_eq_some g n nb blk g1 h
    subst hblk
    refine ⟨rfl, le_two_pow_log2_ceil n, fun k hk => ?_⟩
    exact Nat.pow_le_pow_right (by omega) (log2_ceil_le n k hk)

theorem alloc_size_rounding_witness :
    (MemoryBlock.mk 24 24).size = alignUp8 20 ∧
    20 ≤ (MemoryBlock.mk 24 24).size ∧ 8 ∣ (MemoryBlock.mk 24 24).size :=
  alloc_size_rounding.1 ⟨1000, 24⟩ 20 ⟨24, 24⟩ ⟨1000, 48⟩ rfl

/-- C9: Bucket resizeInPlace never modifies any size class chain (its
cursors and page links included), so the position of the next allocation in
every class is unaffected; a successful call changes at most the bytes
inside the block itself. -/
theorem gpa_resize_frame :
    ∀ (g : GeneralPurposeAllocator) (m : MemoryBlock) (ns : Nat)
      (b : Bool) (g1 : GeneralPurposeAllocator),
      gpa_resize g m ns = some (b, g1) →
      g1.buckets = g.buckets ∧
      ∀ a, a < m.ptr ∨ m.ptr + m.size ≤ a → g1.mem a = g.mem a := by
  intro g m ns b g1 h
  unfold gpa_resize at h
  split at h
  · simp at h
  · split at h
    · simp only [Option.some.injEq, Prod.mk.injEq] at h
      rw [← h.2]
      exact ⟨rfl, fun a _ => rfl⟩
    · split at h
      · simp only [Option.some.injEq, Prod.mk.injEq] at h
        rw [← h.2]
        exact ⟨rfl, fun a _ => rfl⟩
      · simp only [Option.some.injEq, Prod.mk.injEq] at h
        rw [← h.2]
        refine ⟨rfl, fun a ha => ?_⟩
        by_cases hlt : ns < m.size
        · simp only [if_pos hlt]
          simp only [writeRange]
          rw [if_neg (by omega)]
        · simp only [if_neg hlt]

def gpaC9 : GeneralPurposeAllocator :=
  { buckets := (List.replicate 12 ([] : List GPABucket)).set 5
      [{ base := 0, offset := 56, bucket_size := 32 }],
    mem := fun _ => 0xAA }

def gpaC9res : GeneralPurposeAllocator :=
  ((gpa_resize gpaC9 { ptr := 24, size := 32 } 8).getD (false, gpaC9)).2

theorem gpa_resize_frame_witness :
    gpaC9res.buckets = gpaC9.buckets ∧
    ∀ a, a < 24 ∨ 24 + 32 ≤ a → gpaC9res.mem a = gpaC9.mem a :=
  gpa_resize_frame gpaC9 ⟨24, 32⟩ 8 true gpaC9res rfl

/-- C8: on the most recently allocated block of its class, Bucket
resizeInPlace returns true when the new size maps to the same or a smaller
size class, poisoning the vacated tail bytes with the sentinel on a shrink,
and returns false whenever the new size maps to a strictly larger class,
regardless of available room. -/
theorem gpa_resize_class_rule
    (g : GeneralPurposeAllocator) (m : MemoryBlock) (ns : Nat)
    (b : GPABucket) (bs : List GPABucket)
    (hchain : g.buckets.getD (log2_ceil m.size) [] = b :: bs)
    (hlast : m.ptr + 2 ^ log2_ceil m.size = b.offset) :
    (log2_ceil m.size < log2_ceil ns →
      gpa_resize g m ns = some (false, g)) ∧
    (log2_ceil ns ≤ log2_ceil m.size →
      (gpa_resize g m ns).map Prod.fst = some true ∧
      ∀ a, m.ptr + ns ≤ a → a < m.ptr + m.size →
        (gpa_resize g m ns).map (fun r => r.2.mem a) = some 0xAA) := by
  rw [gpa_resize_eq g m ns b bs hchain]
  rw [if_neg (by omega)]
  constructor
  · intro hgt
    rw [if_pos hgt]
  · intro hle
    rw [if_neg (by omega)]
    refine ⟨rfl, fun a ha1 ha2 => ?_⟩
    have hlt : ns < m.size := by omega
    simp only [Option.map_some']
    rw [if_pos hlt]
    simp only [writeRange]
    rw [if_pos (by omega)]

def gpaC8 : GeneralPurposeAllocator :=
  { buckets := (List.replicate 12 ([] : List GPABucket)).set 5
      [{ base := 0, offset := 56, bucket_size := 32 }],
    mem := fun _ => 0xAA }

theorem gpa_resize_class_rule_witness :
    gpa_resize gpaC8 ⟨24, 32⟩ 64 = some (false, gpaC8) :=
  (gpa_resize_class_rule gpaC8 ⟨24, 32⟩ 64 ⟨0, 56, 32⟩ [] rfl rfl).1
    (by decide)

instance (b1 b2 : Nat) : Decidable (pageDisj b1 b2) := by
  unfold pageDisj; infer_instance

instance (a : ArenaAllocator) : Decidable (ArenaWF a) := by
  unfold ArenaWF; infer_instance

instance (a : ArenaAllocator) (m : MemoryBlock) (p : ArenaPage) :
    Decidable (InArenaPage a m p) := by
  unfold InArenaPage; infer_instance

instance (ps : List GPABucket) : Decidable (GPAChainWF ps) := by
  unfold GPAChainWF; infer_instance

theorem disjoint_ranges_ne (pbase hbase x y : Nat)
    (hd : pageDisj pbase hbase)
    (hx1 : pbase + 24 ≤ x) (hx2 : x ≤ pbase + 4096)
    (hy1 : hbase + 24 ≤ y) (hy2 : y ≤ hbase + 4096) : x ≠ y := by
  unfold pageDisj at hd
  omega

/-- C4: for every strategy, resizeInPlace on a block that is not the most
recent allocation in its page or region returns false, and whenever
resizeInPlace returns false the allocator state is completely unchanged. -/
theorem resize_not_last_is_noop :
    (∀ (fba : FixedBufferAllocator) (m : MemoryBlock) (ns : Nat),
       m.ptr + m.size ≠ fba.offset →
       fixed_buffer_resize fba m ns = (false, fba))
    ∧ (∀ (fba : FixedBufferAllocator) (m : MemoryBlock) (ns : Nat)
         (r : FixedBufferAllocator),
       (fixed_buffer_resize fba m ns).1 = false →
       fixed_buffer_resize fba m ns = (false, r) → r = fba)
    ∧ (∀ (a : ArenaAllocator) (m : MemoryBlock) (ns : Nat) (p : ArenaPage),
       ArenaWF a → InArenaPage a m p → m.ptr + m.size ≠ p.offset →
       arena_resize a m ns = (false, a))
    ∧ (∀ (a : ArenaAllocator) (m : MemoryBlock) (ns : Nat)
         (r : ArenaAllocator),
       arena_resize a m ns = (false, r) → r = a)
    ∧ (∀ (g : GeneralPurposeAllocator) (m : MemoryBlock) (ns : Nat)
         (p b : GPABucket) (bs : List GPABucket),
       g.buckets.getD (log2_ceil m.size) [] = b :: bs →
       GPAChainWF (b :: bs) → p ∈ b :: bs →
       p.base + gpaBucketHeaderSize ≤ m.ptr →
       m.ptr + 2 ^ log2_ceil m.size ≤ p.base + 4096 →
       m.ptr + 2 ^ log2_ceil m.size ≠ p.offset →
       gpa_resize g m ns = some (false, g))
    ∧ (∀ (g : GeneralPurposeAllocator) (m : MemoryBlock) (ns : Nat)
         (r : GeneralPurposeAllocator),
       gpa_resize g m ns = some (false, r) → r = g) := by
  refine ⟨?_, ?_, ?_, ?_, ?_, ?_⟩
  · intro fba m ns h
    unfold fixed_buffer_resize
    rw [if_pos h]
  · intro fba m ns r _ h
    unfold fixed_buffer_resize at h
    split at h
    · simp only [Prod.mk.injEq] at h
      exact h.2.symm
    · split at h
      · simp only [Prod.mk.injEq] at h
        exact h.2.symm
      · simp at h
  · intro a m ns p hwf hin hne
    obtain ⟨hpair, hbound⟩ := hwf
    obtain ⟨hmem, hlo, hhi⟩ := hin
    have hKey : m.ptr + m.size ≠ a.offset := by
      rcases List.mem_cons.mp hmem with hp | hp
      · rw [hp] at hne
        exact hne
      · have hd : pageDisj a.base p.base :=
          (List.pairwise_cons.mp hpair).1 p hp
        have hhead := hbound { base := a.base, offset := a.offset }
          (List.mem_cons_self _ _)
        simp only [arenaHeaderSize] at hlo hhead
        have hd2 : pageDisj p.base a.base := by
          unfold pageDisj at hd ⊢; omega
        exact disjoint_ranges_ne p.base a.base (m.ptr + m.size) a.offset hd2
          (by omega) hhi hhead.1 hhead.2
    unfold arena_resize
    rw [if_pos (Or.inl hKey)]
  · intro a m ns r h
    unfold arena_resize at h
    split at h
    · simp only [Prod.mk.injEq] at h
      exact h.2.symm
    · simp at h
  · intro g m ns p b bs hchain hwf hp hlo hhi hne
    obtain ⟨hpair, hbound⟩ := hwf
    have hKey : m.ptr + 2 ^ log2_ceil m.size ≠ b.offset := by
      rcases List.mem_cons.mp hp with hp | hp
      · rw [hp] at hne
        exact hne
      · have hd : pageDisj b.base p.base :=
          (List.pairwise_cons.mp hpair).1 p hp
        have hhead := hbound b (List.mem_cons_self _ _)
        simp only [gpaBucketHeaderSize] at hlo hhead
        have hd2 : pageDisj p.base b.base := by
          unfold pageDisj at hd ⊢; omega
        exact disjoint_ranges_ne p.base b.base
          (m.ptr + 2 ^ log2_ceil m.size) b.offset hd2
          (by have := Nat.pos_pow_of_pos (log2_ceil m.size) (show 0 < 2 by omega); omega)
          hhi hhead.1 hhead.2
    rw [gpa_resize_eq g m ns b bs hchain, if_pos hKey]
  · intro g m ns r h
    unfold gpa_resize at h
    split at h
    · simp at h
    · split at h
      · simp only [Option.some.injEq, Prod.mk.injEq] at h
        exact h.2.symm
      · split at h
        · simp only [Option.some.injEq, Prod.mk.injEq] at h
          exact h.2.symm
        · simp at h

def gpaC4 : GeneralPurposeAllocator :=
  { buckets := (List.replicate 12 ([] : List GPABucket)).set 0
      [{ base := 0, offset := 32, bucket_size := 1 }],
    mem := fun _ => 0xAA }

theorem resize_not_last_is_noop_witness :
    fixed_buffer_resize ⟨1000, 48⟩ ⟨24, 8⟩ 16 = (false, ⟨1000, 48⟩)
    ∧ arena_resize ⟨0, 4096, [⟨8192, 8232⟩]⟩ ⟨8216, 8⟩ 8 =
        (false, ⟨0, 4096, [⟨8192, 8232⟩]⟩)
    ∧ gpa_resize gpaC4 ⟨28, 1⟩ 1 = some (false, gpaC4) :=
  ⟨resize_not_last_is_noop.1 ⟨1000, 48⟩ ⟨24, 8⟩ 16 (by decide),
   resize_not_last_is_noop.2.2.1 ⟨0, 4096, [⟨8192, 8232⟩]⟩ ⟨8216, 8⟩ 8
     ⟨8192, 8232⟩ (by decide) (by decide) (by decide),
   resize_not_last_is_noop.2.2.2.2.1 gpaC4 ⟨28, 1⟩ 1 ⟨0, 32, 1⟩ ⟨0, 32, 1⟩ []
     rfl (by decide) (by decide) (by decide) (by decide) (by decide)⟩

/-- C6: Bucket release first overwrites the size bytes at the pointer with
the sentinel 0xAA; it then scans the CURRENT HEAD page of the class of that
size, from just after its 24-byte header to the page end, and replaces the
class head by that head page's prev exactly when every scanned byte is the
sentinel; a page that is not the current head of its class is never
unlinked by release, and the other classes are untouched. -/
theorem gpa_free_spec (g : GeneralPurposeAllocator) (m : MemoryBlock)
    (b : GPABucket) (bs : List GPABucket)
    (hchain : g.buckets.getD (log2_ceil m.size) [] = b :: bs) :
    ((∀ i, i < 4072 →
        writeRange g.mem m.ptr m.size 0xAA (b.base + gpaBucketHeaderSize + i)
          = 0xAA) →
      gpa_free g m = some { buckets := g.buckets.set (log2_ceil m.size) bs,
                            mem := writeRange g.mem m.ptr m.size 0xAA })
    ∧ ((¬ ∀ i, i < 4072 →
        writeRange g.mem m.ptr m.size 0xAA (b.base + gpaBucketHeaderSize + i)
          = 0xAA) →
      gpa_free g m = some { buckets := g.buckets,
                            mem := writeRange g.mem m.ptr m.size 0xAA })
    ∧ (∀ a, m.ptr ≤ a → a < m.ptr + m.size →
        writeRange g.mem m.ptr m.size 0xAA a = 0xAA) := by
  refine ⟨?_, ?_, fun a h1 h2 => ?_⟩
  · intro hall
    unfold gpa_free
    split
    · rename_i heq
      rw [hchain] at heq
      simp at heq
    · rename_i ob rest heq
      rw [hchain] at heq
      injection heq with hb hbs
      subst hb
      subst hbs
      rw [if_pos ((scan_from_iff _ 4072 (b.base + gpaBucketHeaderSize)).mpr hall)]
  · intro hnot
    unfold gpa_free
    split
    · rename_i heq
      rw [hchain] at heq
      simp at heq
    · rename_i ob rest heq
      rw [hchain] at heq
      injection heq with hb hbs
      subst hb
      subst hbs
      rw [if_neg (fun hc =>
        hnot ((scan_from_iff _ 4072 (b.base + gpaBucketHeaderSize)).mp hc))]
  · simp only [writeRange]
    rw [if_pos (by omega)]

def gpaC6 : GeneralPurposeAllocator :=
  { buckets := (List.replicate 12 ([] : List GPABucket)).set 0
      [{ base := 0, offset := 25, bucket_size := 1 },
       { base := 8192, offset := 8216, bucket_size := 1 }],
    mem := fun _ => 0xAA }

theorem gpa_free_spec_witness :
    gpa_free gpaC6 ⟨24, 1⟩ =
      some { buckets := gpaC6.buckets.set (log2_ceil (1 : Nat))
               [{ base := 8192, offset := 8216, bucket_size := 1 }],
             mem := writeRange gpaC6.mem 24 1 0xAA } :=
  (gpa_free_spec gpaC6 ⟨24, 1⟩ ⟨0, 25, 1⟩ [⟨8192, 8216, 1⟩] rfl).1
    (by
      intro i hi
      simp only [writeRange, gpaC6]
      split
      · rfl
      · rfl)

/-- C1 (amended): allocate is fatal exactly under these per-strategy
conditions.  Fixed-Buffer is fatal iff the 8-byte-rounded request does not
fit between the cursor and the region end — a zero-size request is NOT
checked and succeeds with an empty block.  Arena is fatal iff the size is
zero or exceeds 4096 (not 4096 minus the page header; requests in
(4072, 4096] are accepted).  Bucket is fatal iff the size is zero or
exceeds 2048, the top size class. -/
theorem alloc_fatal_iff :
    (∀ (fba : FixedBufferAllocator) (s : Nat),
       fixed_buffer_alloc fba s = none ↔ fba.offset + alignUp8 s > fba.size)
    ∧ (∀ (a : ArenaAllocator) (s nb : Nat),
       arena_alloc a s nb = none ↔ (s = 0 ∨ s > 4096))
    ∧ (∀ (g : GeneralPurposeAllocator) (s nb : Nat),
       gpa_alloc g s nb = none ↔ (s = 0 ∨ s > 2048)) :=
  ⟨fixed_buffer_alloc_none_iff, arena_alloc_none_iff, gpa_alloc_none_iff⟩

/-- C1 counterexample: a zero-size request on a fresh 1000-byte
Fixed-Buffer allocator does not terminate the process — it succeeds and
returns an empty block — and a 4090-byte Arena request (well above 4096
minus the 24-byte page header) is accepted rather than fatal. -/
theorem alloc_fatal_iff_cex :
    fixed_buffer_alloc { size := 1000, offset := 24 } 0 =
      some ({ ptr := 24, size := 0 }, { size := 1000, offset := 24 })
    ∧ arena_alloc { base := 0, offset := 24, next := [] } 4090 8192 ≠ none := by
  exact ⟨by decide, by decide⟩

/-- C2 (defect evaluation): the arena chain walk compares every page
against the HEAD page end (self + 4096 in the C source) instead of the
candidate page's own end, so first-fit fails.  Concretely: the head page
(base 0) is full, the second page (base 8192, cursor 8224) has 4064 bytes
of room by its own end, yet an 8-byte request skips it and appends a third
page at 16384, allocating there. -/
theorem arena_first_fit_bug :
    arena_alloc { base := 0, offset := 4096, next := [⟨8192, 8224⟩] } 8 16384 =
      some ({ ptr := 16408, size := 8 },
            { base := 0, offset := 4096,
              next := [⟨8192, 8224⟩, ⟨16384, 16416⟩] })
    ∧ (8224 : Nat) + alignUp8 8 ≤ 8192 + 4096 := by
  exact ⟨by decide, by decide⟩

/-- C3 (amended): Arena resizeInPlace consults only the HEAD page: it
returns true (moving the head cursor to ptr plus the rounded new size)
exactly when the block is the tail allocation of the head page and the
rounded new size still fits the head page; tail allocations of non-head
pages are rejected. -/
theorem arena_resize_head_only :
    ∀ (a : ArenaAllocator) (m : MemoryBlock) (ns : Nat),
      arena_resize a m ns = (true, { a with offset := m.ptr + alignUp8 ns })
        ↔ (m.ptr + m.size = a.offset ∧
           m.ptr + alignUp8 ns ≤ a.base + 4096) := by
  intro a m ns
  unfold arena_resize
  split
  · rename_i hc
    constructor
    · intro h
      simp at h
    · rintro ⟨h1, h2⟩
      rcases hc with hc | hc
      · exact absurd h1 hc
      · exfalso
        omega
  · rename_i hc
    push_neg at hc
    constructor
    · intro _
      exact ⟨hc.1, by omega⟩
    · intro _
      rfl

/-- C3 counterexample: in an arena whose full head page (base 0, cursor
4096) chains to a second page at base 8192 with cursor 8224, the block at
8216 of size 8 is the tail allocation of the second page and the rounded
new size 8 fits that page, yet resize returns false and changes nothing. -/
theorem arena_resize_head_only_cex :
    arena_resize { base := 0, offset := 4096, next := [⟨8192, 8224⟩] }
        { ptr := 8216, size := 8 } 8 =
      (false, { base := 0, offset := 4096, next := [⟨8192, 8224⟩] })
    ∧ (8216 : Nat) + 8 = 8224
    ∧ (8216 : Nat) + alignUp8 8 ≤ 8192 + 4096 := by
  exact ⟨by decide, by decide, by decide⟩

theorem fixed_buffer_resize_after_alloc (fba : FixedBufferAllocator)
    (n m : Nat) (hm : fba.offset + alignUp8 m ≤ fba.size) :
    fixed_buffer_resize { fba with offset := fba.offset + alignUp8 n }
        { ptr := fba.offset, size := alignUp8 n } m =
      (true, { fba with offset := fba.offset + alignUp8 m }) := by
  unfold fixed_buffer_resize
  rw [if_neg (by dsimp only; omega)]
  rw [if_neg (by dsimp only; omega)]
  dsimp only
  have heq : fba.offset + alignUp8 n - alignUp8 n + alignUp8 m
      = fba.offset + alignUp8 m := by omega
  rw [heq]

theorem arena_resize_after_alloc (a : ArenaAllocator) (n m : Nat)
    (hm : a.offset + alignUp8 m ≤ a.base + 4096) :
    arena_resize { a with offset := a.offset + alignUp8 n }
        { ptr := a.offset, size := alignUp8 n } m =
      (true, { a with offset := a.offset + alignUp8 m }) := by
  unfold arena_resize
  rw [if_neg (by dsimp only; omega)]

/-- C5 (amended): immediately after allocate(n) returns a block at ptr,
Fixed-Buffer behaves as the claim states: resizeInPlace with a fitting m
returns true and the next allocation lands exactly at ptr + alignUp8 m.
Arena behaves the same way provided the allocation was served from the
head page.  Bucket returns true for a same-or-smaller-class m but never
moves any cursor, so the class head cursor stays at ptr + 2 ^ oldClass and
the next allocation of that class lands there, not at ptr + roundedSize m
(see the counterexample). -/
theorem resize_then_alloc_contiguous :
    (∀ (fba : FixedBufferAllocator) (n m k : Nat) (blk : MemoryBlock)
       (f1 : FixedBufferAllocator),
       fixed_buffer_alloc fba n = some (blk, f1) →
       blk.ptr + alignUp8 m ≤ f1.size →
       (fixed_buffer_resize f1 blk m).1 = true ∧
       (blk.ptr + alignUp8 m + alignUp8 k ≤ f1.size →
         (fixed_buffer_alloc (fixed_buffer_resize f1 blk m).2 k).map
             (fun r => r.1.ptr) = some (blk.ptr + alignUp8 m)))
    ∧ (∀ (a : ArenaAllocator) (n m k nb nb2 : Nat) (blk : MemoryBlock)
         (a1 : ArenaAllocator),
       a.offset + alignUp8 n ≤ a.base + 4096 →
       arena_alloc a n nb = some (blk, a1) →
       blk.ptr + alignUp8 m ≤ a.base + 4096 →
       (arena_resize a1 blk m).1 = true ∧
       (k ≠ 0 → k ≤ 4096 →
         blk.ptr + alignUp8 m + alignUp8 k ≤ a.base + 4096 →
         (arena_alloc (arena_resize a1 blk m).2 k nb2).map
             (fun r => r.1.ptr) = some (blk.ptr + alignUp8 m)))
    ∧ (∀ (g : GeneralPurposeAllocator) (n m nb : Nat) (blk : MemoryBlock)
         (g1 : GeneralPurposeAllocator),
       g.buckets.length = 12 →
       gpa_alloc g n nb = some (blk, g1) →
       log2_ceil m ≤ log2_ceil n →
       (gpa_resize g1 blk m).map Prod.fst = some true ∧
       (gpa_resize g1 blk m).map (fun r => r.2.buckets) = some g1.buckets ∧
       ((g1.buckets.getD (log2_ceil n) []).headD ⟨0, 0, 0⟩).offset
         = blk.ptr + 2 ^ log2_ceil n) := by
  refine ⟨?_, ?_, ?_⟩
  · intro fba n m k blk f1 halloc hm
    obtain ⟨hle, hblk, hf1⟩ := fixed_buffer_alloc_eq_some fba n blk f1 halloc
    subst hblk
    subst hf1
    have hm' : fba.offset + alignUp8 m ≤ fba.size := by
      dsimp only at hm
      exact hm
    rw [fixed_buffer_resize_after_alloc fba n m hm']
    refine ⟨rfl, fun hk => ?_⟩
    dsimp only at hk ⊢
    unfold fixed_buffer_alloc
    rw [if_neg (by dsimp only; omega)]
    simp only [Option.map_some', Option.some.injEq]
  · intro a n m k nb nb2 blk a1 hroom halloc hm
    obtain ⟨hblk, ha1⟩ := arena_alloc_head_some a n nb blk a1 hroom halloc
    subst hblk
    subst ha1
    have hm' : a.offset + alignUp8 m ≤ a.base + 4096 := by
      dsimp only at hm
      exact hm
    rw [arena_resize_after_alloc a n m hm']
    refine ⟨rfl, fun hk0 hk4 hk => ?_⟩
    dsimp only at hk ⊢
    unfold arena_alloc
    rw [if_neg (by omega)]
    rw [if_pos (by dsimp only; omega)]
    simp only [Option.map_some', Option.some.injEq]
  · intro g n m nb blk g1 hlen halloc hm
    have hhead := gpa_alloc_head_cursor g n nb blk g1 hlen halloc
    obtain ⟨hn0, hn4, hidx, hblk, hg1⟩ := gpa_alloc_eq_some g n nb blk g1 halloc
    have hsize : log2_ceil blk.size = log2_ceil n := by
      rw [hblk]
      dsimp only
      exact log2_ceil_pow _
    have hchain : g1.buckets.getD (log2_ceil blk.size) [] =
        ({ (gpa_grow g (log2_ceil n) (2 ^ log2_ceil n) nb).1 with
           offset := blk.ptr + 2 ^ log2_ceil n }
          :: (gpa_grow g (log2_ceil n) (2 ^ log2_ceil n) nb).2.1) := by
      rw [hsize]
      exact hhead
    rw [gpa_resize_eq g1 blk m _ _ hchain]
    rw [if_neg (by dsimp only; rw [hsize]; omega)]
    rw [if_neg (by rw [hsize]; omega)]
    refine ⟨rfl, rfl, ?_⟩
    rw [hhead]
    rfl

theorem resize_then_alloc_contiguous_witness :
    (fixed_buffer_resize ⟨1000, 48⟩ ⟨24, 24⟩ 8).1 = true ∧
    ((24 : Nat) + alignUp8 8 + alignUp8 8 ≤ 1000 →
      (fixed_buffer_alloc (fixed_buffer_resize ⟨1000, 48⟩ ⟨24, 24⟩ 8).2 8).map
          (fun r => r.1.ptr) = some (24 + alignUp8 8)) :=
  resize_then_alloc_contiguous.1 ⟨1000, 24⟩ 20 8 8 ⟨24, 24⟩ ⟨1000, 48⟩ rfl
    (by decide)

def gpaC5 : GeneralPurposeAllocator :=
  create_gpa_allocator (fun _ => 0xAA)

def gpaC5a : GeneralPurposeAllocator :=
  ((gpa_alloc gpaC5 20 0).getD ({ ptr := 0, size := 0 }, gpaC5)).2

def gpaC5b : GeneralPurposeAllocator :=
  ((gpa_resize gpaC5a ⟨24, 32⟩ 8).getD (false, gpaC5a)).2

/-- C5 counterexample: two concrete failures of the claim as stated.
Bucket: on a fresh allocator, allocate(20) returns the 32-byte block at 24;
resizeInPlace of that block to 8 bytes returns true, but the next
allocate(20) returns 56 = 24 + 32, not 24 + roundedSize(8) — the cursor
never retracted.  Arena: with a full head page the allocation of 5 bytes is
served from a fresh second page, and resizeInPlace of that fresh block with
a fitting new size returns false outright. -/
theorem resize_then_alloc_contiguous_cex :
    (gpa_alloc gpaC5 20 0).map (fun r => r.1) = some ⟨24, 32⟩
    ∧ (gpa_resize gpaC5a ⟨24, 32⟩ 8).map Prod.fst = some true
    ∧ (gpa_alloc gpaC5b 20 0).map (fun r => r.1.ptr) = some 56
    ∧ (56 : Nat) ≠ 24 + 2 ^ log2_ceil 8
    ∧ (56 : Nat) ≠ 24 + alignUp8 8
    ∧ arena_alloc { base := 0, offset := 4096, next := [] } 5 8192 =
        some ({ ptr := 8216, size := 8 },
              { base := 0, offset := 4096, next := [⟨8192, 8224⟩] })
    ∧ (arena_resize { base := 0, offset := 4096, next := [⟨8192, 8224⟩] }
         { ptr := 8216, size := 8 } 5).1 = false
    ∧ (8216 : Nat) + alignUp8 5 ≤ 8192 + 4096 := by
  exact ⟨rfl, rfl, rfl, by decide, by decide, by decide, by decide, by decide⟩

/-- C10 (amended): resize to the same reported size is an identity for
Fixed-Buffer and Bucket, and for Arena whenever the allocation was served
from the head page: the call returns true and the allocator state
(including, for Bucket, every byte of memory) is exactly unchanged.  For a
most recent allocation living on a non-head arena page the call instead
returns false (see the counterexample). -/
theorem resize_same_size_identity :
    (∀ (fba : FixedBufferAllocator) (n : Nat) (blk : MemoryBlock)
       (f1 : FixedBufferAllocator),
       fixed_buffer_alloc fba n = some (blk, f1) →
       fixed_buffer_resize f1 blk blk.size = (true, f1))
    ∧ (∀ (a : ArenaAllocator) (n nb : Nat) (blk : MemoryBlock)
         (a1 : ArenaAllocator),
       a.offset + alignUp8 n ≤ a.base + 4096 →
       arena_alloc a n nb = some (blk, a1) →
       arena_resize a1 blk blk.size = (true, a1))
    ∧ (∀ (g : GeneralPurposeAllocator) (n nb : Nat) (blk : MemoryBlock)
         (g1 : GeneralPurposeAllocator),
       g.buckets.length = 12 →
       gpa_alloc g n nb = some (blk, g1) →
       gpa_resize g1 blk blk.size = some (true, g1)) := by
  refine ⟨?_, ?_, ?_⟩
  · intro fba n blk f1 halloc
    obtain ⟨hle, hblk, hf1⟩ := fixed_buffer_alloc_eq_some fba n blk f1 halloc
    subst hblk
    subst hf1
    have h8 : alignUp8 (alignUp8 n) = alignUp8 n :=
      alignUp8_of_dvd _ (alignUp8_dvd n)
    unfold fixed_buffer_resize
    rw [if_neg (by dsimp only; omega)]
    rw [if_neg (by dsimp only; rw [h8]; omega)]
    dsimp only
    rw [h8]
    have heq : fba.offset + alignUp8 n - alignUp8 n + alignUp8 n
        = fba.offset + alignUp8 n := by omega
    rw [heq]
  · intro a n nb blk a1 hroom halloc
    obtain ⟨hblk, ha1⟩ := arena_alloc_head_some a n nb blk a1 hroom halloc
    subst hblk
    subst ha1
    have h8 : alignUp8 (alignUp8 n) = alignUp8 n :=
      alignUp8_of_dvd _ (alignUp8_dvd n)
    unfold arena_resize
    rw [if_neg (by dsimp only; rw [h8]; omega)]
    dsimp only
    rw [h8]
  · intro g n nb blk g1 hlen halloc
    have hhead := gpa_alloc_head_cursor g n nb blk g1 hlen halloc
    obtain ⟨hn0, hn4, hidx, hblk, hg1⟩ := gpa_alloc_eq_some g n nb blk g1 halloc
    have hsize : log2_ceil blk.size = log2_ceil n := by
      rw [hblk]
      dsimp only
      exact log2_ceil_pow _
    have hchain : g1.buckets.getD (log2_ceil blk.size) [] =
        ({ (gpa_grow g (log2_ceil n) (2 ^ log2_ceil n) nb).1 with
           offset := blk.ptr + 2 ^ log2_ceil n }
          :: (gpa_grow g (log2_ceil n) (2 ^ log2_ceil n) nb).2.1) := by
      rw [hsize]
      exact hhead
    rw [gpa_resize_eq g1 blk blk.size _ _ hchain]
    rw [if_neg (by dsimp only; rw [hsize]; omega)]
    rw [if_neg (by omega)]
    rw [if_neg (by omega)]

theorem resize_same_size_identity_witness :
    fixed_buffer_resize ⟨1000, 48⟩ ⟨24, 24⟩ (MemoryBlock.mk 24 24).size
      = (true, ⟨1000, 48⟩) :=
  resize_same_size_identity.1 ⟨1000, 24⟩ 20 ⟨24, 24⟩ ⟨1000, 48⟩ rfl

/-- C10 counterexample: after an 8-byte request that is served from a fresh
second page because the head page (base 0) is full, resizing that most
recent allocation to its own reported size returns false rather than true:
arena resize consults only the head page cursor. -/
theorem resize_same_size_identity_cex :
    arena_alloc { base := 0, offset := 4096, next := [] } 8 8192 =
      some ({ ptr := 8216, size := 8 },
            { base := 0, offset := 4096, next := [⟨8192, 8224⟩] })
    ∧ arena_resize { base := 0, offset := 4096, next := [⟨8192, 8224⟩] }
        { ptr := 8216, size := 8 } 8 =
      (false, { base := 0, offset := 4096, next := [⟨8192, 8224⟩] }) := by
  exact ⟨by decide, by decide⟩
